import Mathlib

/-!
Shallow embedding of the `smolbar` status-command core (Rust sources under
`src/`), together with theorems settling the specification claims about it.

The embedding translates, file by file:
* `src/protocol.rs` — the `Body`, `Align`, `Markup` data model;
* `src/block.rs`    — `apply_scopes` (scope merging), the command task
  (`Block::task_cmd`), the interval task setup (`Block::task_interval`),
  and the channel layout of `Block::new`;
* `src/bar.rs`      — the refresh-write loop and the continue/stop control
  loop of `Smolbar::run`;
* `src/blocks.rs`   — the `Blocks` worker-set bulk operations;
* `src/config.rs`   — the pure post-parse adjustment of
  `Config::read_from_path`.

Rust field names are kept wherever Lean permits; `prefix`/`postfix` become
`pre`/`post` and `instance` becomes `inst` (Lean keywords or reserved words).
-/

namespace Smolbar

/-- Log severity, as used by the `tracing` macros in the source. -/
inductive LogLevel where
  | error
  | warn
  | info
  | trace
deriving DecidableEq, Repr

/-- One log record: level and message. -/
structure LogEntry where
  level : LogLevel
  msg : String
deriving DecidableEq, Repr

/-! ## File `src/protocol.rs`: the display data model -/

/-- Type `protocol::Align` (swaybar body alignment). -/
inductive Align where
  | left
  | right
  | center
deriving DecidableEq, Repr

/-- Type `protocol::Markup` (swaybar body markup). -/
inductive Markup where
  | pango
  | none
deriving DecidableEq, Repr

/-- Type `protocol::Body`: the renderable attributes of one block.  All fields are
optional; string-typed fields (`CowStr` in the source) are Lean `String`s and
`u32` fields are `Nat` (parse functions enforce the `u32` bound). -/
structure Body where
  full_text : Option String
  short_text : Option String
  color : Option String
  background : Option String
  border : Option String
  border_top : Option Nat
  border_bottom : Option Nat
  border_left : Option Nat
  border_right : Option Nat
  min_width : Option String
  align : Option Align
  name : Option String
  inst : Option String
  urgent : Option Bool
  separator : Option Bool
  separator_block_width : Option Nat
  markup : Option Markup
deriving DecidableEq, Repr

/-- Constructor `Body::new()`: all optional fields blank. -/
def Body.new : Body where
  full_text := none
  short_text := none
  color := none
  background := none
  border := none
  border_top := none
  border_bottom := none
  border_left := none
  border_right := none
  min_width := none
  align := none
  name := none
  inst := none
  urgent := none
  separator := none
  separator_block_width := none
  markup := none

/-! ## File `src/config.rs`: block configuration -/

/-- Type `config::TomlBlock`: per-block configuration.  `pre`/`post` are the
`prefix`/`postfix` strings of the source; `interval` and `signal` are modelled
where they are needed (see `F32` below for intervals). -/
structure TomlBlock where
  command : Option String
  pre : Option String
  post : Option String
  signal : Option Int
  body : Body
deriving DecidableEq, Repr

/-! ## Field parsers (`FromStr` impls used by `apply_scopes`)

`CowStr`'s `FromStr` is infallible; `u32`, `bool`, `Align`, `Markup` can
fail.  These model the exact Rust `FromStr` behaviour for the values that
occur on block-command output lines (which contain no embedded newline). -/

/-- Rust `FromStr` for `CowStr`: infallible. -/
def parseStr (s : String) : Option String := some s

/-- Rust `FromStr` for `u32`: an optional leading `+`, then one or more ASCII
digits, value below `2^32`. -/
def parseU32 (s : String) : Option Nat :=
  let digits := match s.data with
    | '+' :: rest => rest
    | chars => chars
  if digits = [] then none
  else if digits.all Char.isDigit then
    let v := digits.foldl (fun acc c => acc * 10 + (c.toNat - 48)) 0
    if v < 2 ^ 32 then some v else none
  else none

/-- Rust `FromStr` for `bool`: exactly `"true"` or `"false"`. -/
def parseBool (s : String) : Option Bool :=
  if s = "true" then some true
  else if s = "false" then some false
  else none

/-- ASCII-lowercase a string (for `eq_ignore_ascii_case`). -/
def asciiLower (s : String) : String :=
  ⟨s.data.map Char.toLower⟩

/-- Rust `FromStr` for `Align` (`eq_ignore_ascii_case` against the three words). -/
def parseAlign (s : String) : Option Align :=
  if asciiLower s = "left" then some .left
  else if asciiLower s = "right" then some .right
  else if asciiLower s = "center" then some .center
  else none

/-- Rust `FromStr` for `Markup` (`eq_ignore_ascii_case` against the two words). -/
def parseMarkup (s : String) : Option Markup :=
  if asciiLower s = "pango" then some .pango
  else if asciiLower s = "none" then some .none
  else none

/-- Split a character list on `'\n'` (the separators are dropped; a final
`'\n'` yields a trailing empty segment, an empty input one empty segment). -/
def splitNl : List Char → List (List Char)
  | [] => [[]]
  | c :: rest =>
    match splitNl rest with
    | [] => [[c]]
    | line :: more =>
      if c = '\n' then [] :: line :: more else (c :: line) :: more

/-- Drop one trailing `'\r'` if present. -/
def stripCr (l : List Char) : List Char :=
  if l.getLast? = some '\r' then l.dropLast else l

/-- Rust `str::lines`: split after every `'\n'`, strip the trailing `'\n'`
of each segment and a `'\r'` directly before it; the empty string yields no
lines, and a final segment without `'\n'` keeps a trailing `'\r'`. -/
def rustLines (s : String) : List String :=
  let parts := splitNl s.data
  let lastPart := parts.getLast?.getD []
  let core := parts.dropLast.map stripCr
  let segs := if lastPart = [] then core else core ++ [lastPart]
  segs.map fun cs => ⟨cs⟩

/-! ## File `src/block.rs`: the function `apply_scopes` -/

/-- The inner `update` helper of `apply_scopes`: the parsed positional line
if present and parseable, else the item-local value, else the global value,
else unset. -/
def update {α : Type} (parse : String → Option α) (value : Option String)
    (loc glob : Option α) : Option α :=
  Option.orElse
    (Option.orElse
      (match value with
        | some val =>
          match parse val with
          | some new => some new
          | none => none
        | none => none)
      fun _ => loc)
    fun _ => glob

/-- Function `apply_scopes` from `Block::task_cmd`: rebuild the body from the
positional output lines, the item-local scope and the global scope, then
prepend `prefix` / append `postfix` to `full_text` when it is set.  The prior
body contents are entirely overwritten (hence no prior-body argument). -/
def applyScopes (lines : List String) (glob : Body) (toml : TomlBlock) : Body :=
  let b : Body := {
    full_text := update parseStr lines[0]? toml.body.full_text glob.full_text
    short_text := update parseStr lines[1]? toml.body.short_text glob.short_text
    color := update parseStr lines[2]? toml.body.color glob.color
    background := update parseStr lines[3]? toml.body.background glob.background
    border := update parseStr lines[4]? toml.body.border glob.border
    border_top := update parseU32 lines[5]? toml.body.border_top glob.border_top
    border_bottom := update parseU32 lines[6]? toml.body.border_bottom glob.border_bottom
    border_left := update parseU32 lines[7]? toml.body.border_left glob.border_left
    border_right := update parseU32 lines[8]? toml.body.border_right glob.border_right
    min_width := update parseStr lines[9]? toml.body.min_width glob.min_width
    align := update parseAlign lines[10]? toml.body.align glob.align
    name := update parseStr lines[11]? toml.body.name glob.name
    inst := update parseStr lines[12]? toml.body.inst glob.inst
    urgent := update parseBool lines[13]? toml.body.urgent glob.urgent
    separator := update parseBool lines[14]? toml.body.separator glob.separator
    separator_block_width :=
      update parseU32 lines[15]? toml.body.separator_block_width glob.separator_block_width
    markup := update parseMarkup lines[16]? toml.body.markup glob.markup }
  let b2 := match toml.pre with
    | some p =>
      match b.full_text with
      | some ft => { b with full_text := some (p ++ ft) }
      | none => b
    | none => b
  match b2.full_text with
  | some ft =>
    match toml.post with
    | some q => { b2 with full_text := some (ft ++ q) }
    | none => b2
  | none => b2

/-! ## Rust `String::from_utf8` (used on command stdout)

A full UTF-8 validator/decoder over the raw stdout bytes: rejects stray or
missing continuation bytes, overlong encodings, surrogate code points and
values above `U+10FFFF`, exactly as `String::from_utf8` does. -/

/-- Is `b` a UTF-8 continuation byte (`0x80..=0xBF`)? -/
def isCont (b : Nat) : Bool := 128 ≤ b && b ≤ 191

/-- Decode a UTF-8 byte sequence to its code points, or `none` if invalid. -/
def utf8DecodeAux : List Nat → Option (List Nat)
  | [] => some []
  | b :: rest =>
    if b ≤ 127 then
      (utf8DecodeAux rest).map (b :: ·)
    else if 194 ≤ b && b ≤ 223 then
      match rest with
      | c :: rest2 =>
        if isCont c then
          (utf8DecodeAux rest2).map (((b - 192) * 64 + (c - 128)) :: ·)
        else none
      | [] => none
    else if 224 ≤ b && b ≤ 239 then
      match rest with
      | c :: d :: rest2 =>
        let lowOk :=
          if b = 224 then 160 ≤ c && c ≤ 191
          else if b = 237 then 128 ≤ c && c ≤ 159
          else isCont c
        if lowOk && isCont d then
          (utf8DecodeAux rest2).map
            (((b - 224) * 4096 + (c - 128) * 64 + (d - 128)) :: ·)
        else none
      | _ => none
    else if 240 ≤ b && b ≤ 244 then
      match rest with
      | c :: d :: e :: rest2 =>
        let lowOk :=
          if b = 240 then 144 ≤ c && c ≤ 191
          else if b = 244 then 128 ≤ c && c ≤ 143
          else isCont c
        if lowOk && isCont d && isCont e then
          (utf8DecodeAux rest2).map
            (((b - 240) * 262144 + (c - 128) * 4096 + (d - 128) * 64 + (e - 128)) :: ·)
        else none
      | _ => none
    else none

/-- Rust `String::from_utf8`: the decoded string, or `none` on invalid UTF-8. -/
def utf8Decode (bytes : List Nat) : Option String :=
  (utf8DecodeAux bytes).map fun cps => ⟨cps.map Char.ofNat⟩

/-! ## File `src/block.rs`: command output handling in `Block::task_cmd` -/

/-- The result of `std::process::Command::output()` when the process could be
spawned and awaited: its exit status and captured stdout bytes.  A non-zero
`status` models a command that failed. -/
structure CmdOutput where
  status : Int
  stdout : List Nat
deriving DecidableEq, Repr

/-- The `immediate` computation of `Block::task_cmd` on a completed
`try_output`: a spawn error or invalid UTF-8 logs an error and yields `""`
(`unwrap_or_else`); otherwise the decoded stdout is used unchanged — the exit
status is never inspected. -/
def processOutput (tryOutput : Except String CmdOutput) : String × List LogEntry :=
  match tryOutput with
  | .ok output =>
    match utf8Decode output.stdout with
    | some utf8 => (utf8, [])
    | none => ("", [⟨.error, "command produced invalid utf8"⟩])
  | .error e => ("", [⟨.error, "command error: " ++ e⟩])

/-- One completed command refresh in `Block::task_cmd`: compute `immediate`
from the command result, split it into lines, and re-apply the scopes.
Returns the new body and the log entries recorded. -/
def refreshBody (glob : Body) (toml : TomlBlock)
    (tryOutput : Except String CmdOutput) : Body × List LogEntry :=
  let (immediate, logs) := processOutput tryOutput
  (applyScopes (rustLines immediate) glob toml, logs)

/-! ## File `src/block.rs`: interval trigger setup (`Block::task_interval`)

The configured interval is an `Option<f32>`.  We embed `f32` values as an
exact classification — a finite rational magnitude or a non-finite value —
which captures every value an `f32` can take (every finite `f32` is a
rational). -/

/-- An `f32` value: every finite `f32` is exactly a dyadic rational
`num / 2^exp`, so a finite value is embedded by such a pair; the non-finite
values are the remaining cases. -/
inductive F32 where
  | finite (num : Int) (exp : Nat)
  | nan
  | posInf
  | negInf
deriving DecidableEq

/-- Round `n / d` (for `d > 0`) to the nearest natural, ties to even (the
rounding used by `Duration::try_from_secs_f32`). -/
def roundHalfEvenDiv (n d : Nat) : Nat :=
  let q := n / d
  let r := n % d
  if 2 * r < d then q
  else if d < 2 * r then q + 1
  else if q % 2 = 0 then q else q + 1

/-- Rust `Duration::try_from_secs_f32`: errors on negative, non-finite, or
overflowing values; otherwise the duration, in nanoseconds, rounded to the
nearest nanosecond with ties to even. -/
def tryFromSecsF32 : F32 → Except String Nat
  | .finite num exp =>
    if num < 0 then .error "can not convert float seconds to Duration: value is negative"
    else
      let nanos := roundHalfEvenDiv (num.toNat * 1000000000) (2 ^ exp)
      if 2 ^ 64 * 1000000000 ≤ nanos then
        .error "can not convert float seconds to Duration: value is either too big or NaN"
      else .ok nanos
  | .nan => .error "can not convert float seconds to Duration: value is either too big or NaN"
  | .posInf => .error "can not convert float seconds to Duration: value is either too big or NaN"
  | .negInf => .error "can not convert float seconds to Duration: value is negative"

/-- The setup phase of `Block::task_interval`: decides whether the periodic
trigger runs and with which period (in nanoseconds), and which log entries
are recorded.  `none` as first component means the trigger is disabled (the
task only waits for its halt message). -/
def taskIntervalSetup (interval : Option F32) : Option Nat × List LogEntry :=
  match interval.map tryFromSecsF32 with
  | some (.ok timeout) =>
    if timeout = 0 then
      (none, [⟨.error, "cant have timeout of zero"⟩])
    else if timeout < 1000000 then
      (some 1000000, [⟨.warn, "timeout was really small and clamped to a millisecond"⟩])
    else
      (some timeout, [])
  | some (.error e) => (none, [⟨.error, "invalid timeout: " ++ e⟩])
  | none => (none, [])

/-! ## Files `src/block.rs` and `src/bar.rs`: channel construction

`Block::new` creates its three internal mpsc channels with
`mpsc::channel(1)` (block.rs lines 61–63), and `Smolbar::new` creates the
bar's refresh channel with `mpsc::channel(1)` (bar.rs line 49). -/

/-- The observable construction data of `Block::new`: the initial body
(scopes applied to the empty output, block.rs line 256) and the capacities
of the `sig`, `interval` and `cmd` channels. -/
structure BlockInit where
  body : Body
  sig_cap : Nat
  interval_cap : Nat
  cmd_cap : Nat
deriving DecidableEq, Repr

/-- Constructor `Block::new` (construction-time data): all three channels have
capacity 1; the body starts as the scope merge over empty output. -/
def blockNew (toml : TomlBlock) (glob : Body) (_id : Nat) : BlockInit :=
  { body := applyScopes (rustLines "") glob toml
    sig_cap := 1
    interval_cap := 1
    cmd_cap := 1 }

/-- Constructor `Smolbar::new`: the capacity of the bar's refresh channel (bar.rs
line 49). -/
def barRefreshChannelCap : Nat := 1

/-- The queue capacity the specification claims: `max(2, 2 × worker_count)`.
This definition follows the spec words, for comparison with `blockNew`. -/
def specQueueCapacity (worker_count : Nat) : Nat := max 2 (2 * worker_count)

/-! ## File `src/config.rs`: pure post-parse steps of `Config::read_from_path` -/

/-- Bar-level configuration after TOML parsing.  `smolbar_version_ok`
abstracts `required.matches(&current)` of the semver check. -/
structure TomlBar where
  header_version : Int
  smolbar_version_ok : Bool
  body : Body
  blocks : List TomlBlock
deriving DecidableEq, Repr

/-- The pure post-parse pipeline of `Config::read_from_path` (config.rs
lines 121–158): warn (log only) on a non-default header version, replace an
absent global `full_text` with `Some("")`, then fail if the smolbar version
requirement is unsatisfied. -/
def readFromPathToml (toml : TomlBar) : Except String TomlBar :=
  let toml :=
    if toml.body.full_text = none then
      { toml with body := { toml.body with full_text := some "" } }
    else toml
  if toml.smolbar_version_ok then .ok toml
  else .error "this configuration is unsupported by the current version of smolbar"

/-! ## File `src/bar.rs`: the refresh-write loop of `Smolbar::run`

The spawned `refresh` task: an outer loop that (re)spawns an inner loop;
the inner loop receives on `refresh_recv` (`true` = refresh request,
`false` = halt), and for each request races a further `recv` against taking
the blocks lock; winning the lock writes one frame (the ordered snapshot of
all block bodies).  A write error is returned to the outer loop, which logs
it and restarts the inner loop with the retained receiver.

The embedding is driven by: the queued messages, a schedule deciding each
select when both branches are ready (`true` = the message branch wins), the
blocks snapshot observed at each lock acquisition, and the success of each
attempted frame write. -/

/-- How the refresh task ends. `fatal` — a sink error surfaced to the
caller — exists in the ambient `Result` type but is never produced. -/
inductive RStatus where
  | halted
  | pending
  | fatal (e : String)
deriving DecidableEq, Repr

/-- Observable outcome of the refresh task: the frames written to stdout in
order, how the task ended, and how many write errors were logged. -/
structure RResult where
  frames : List (List Body)
  status : RStatus
  errorLogs : Nat
deriving DecidableEq, Repr

/-- The refresh task of `Smolbar::run` (bar.rs lines 113–210), inner and
outer loop combined (the outer loop's restart re-enters the same receive
loop).  Arguments: queued messages, select schedule, snapshots at each lock
acquisition, write outcomes. -/
def refreshRun : List Bool → List Bool → List (List Body) → List Bool → RResult
  | [], _, _, _ => ⟨[], .pending, 0⟩
  | false :: _, _, _, _ => ⟨[], .halted, 0⟩
  | [true], _, snaps, sink =>
    -- the queue is empty, so the lock branch wins: write one frame, then
    -- the receive loop waits for the next message
    if sink.head?.getD true then ⟨[snaps.head?.getD []], .pending, 0⟩
    else ⟨[], .pending, 1⟩
  | true :: m2 :: msgs2, sched, snaps, sink =>
    if sched.head?.getD false then
      -- the queued message wins the select before the lock is taken
      if m2 then
        -- a second request arrived before the lock: this iteration writes
        -- nothing and the receive loop continues
        refreshRun msgs2 sched.tail snaps sink
      else ⟨[], .halted, 0⟩
    else
      -- the lock wins: write the current snapshot (or log a failed write;
      -- the outer loop restarts the receive loop on failure)
      if sink.head?.getD true then
        ⟨snaps.head?.getD [] :: (refreshRun (m2 :: msgs2) sched.tail snaps.tail sink.tail).frames,
         (refreshRun (m2 :: msgs2) sched.tail snaps.tail sink.tail).status,
         (refreshRun (m2 :: msgs2) sched.tail snaps.tail sink.tail).errorLogs⟩
      else
        ⟨(refreshRun (m2 :: msgs2) sched.tail snaps.tail sink.tail).frames,
         (refreshRun (m2 :: msgs2) sched.tail snaps.tail sink.tail).status,
         (refreshRun (m2 :: msgs2) sched.tail snaps.tail sink.tail).errorLogs + 1⟩

/-! ## File `src/block.rs`: the command task loop of `Block::task_cmd` -/

/-- The fate of one spawned command process: `detached` means the future
awaiting it was dropped by `select!`, leaving the process running
unsupervised with its result discarded. -/
inductive ProcFate where
  | killed
  | detached
  | completed
deriving DecidableEq, Repr

/-- Observable outcome of the command task: final body, fate of each
spawned process in spawn order, refresh pings sent to the bar, logs, and
whether the loop exited through a halt message. -/
structure CmdRun where
  body : Body
  procs : List ProcFate
  refreshes : Nat
  logs : List LogEntry
  halted : Bool
deriving DecidableEq, Repr

/-- The receive loop of `Block::task_cmd` (block.rs lines 259–322).
Arguments: messages on `cmd_recv` (`true` = refresh, `false` = halt), the
select schedule for the race between a further `recv` and command
completion (`true` = the message branch wins), the result of each command
that runs to completion, and the current body. -/
def taskCmdRun (toml : TomlBlock) (glob : Body) :
    List Bool → List Bool → List (Except String CmdOutput) → Body → CmdRun
  | [], _, _, body => ⟨body, [], 0, [], false⟩
  | false :: _, _, _, body => ⟨body, [], 0, [], true⟩
  | [true], _, outputs, body =>
    match toml.command with
    | none =>
      -- no command is set; the body cannot change until the config does
      ⟨body, [], 0, [], false⟩
    | some _ =>
      -- the queue is empty, so the command runs to completion: re-apply the
      -- scopes, ping the bar, then the receive loop waits
      ⟨(refreshBody glob toml (outputs.head?.getD (.ok ⟨0, []⟩))).1,
       [.completed], 1, (refreshBody glob toml (outputs.head?.getD (.ok ⟨0, []⟩))).2,
       false⟩
  | true :: m2 :: msgs2, sched, outputs, body =>
    match toml.command with
    | none =>
      -- no command is set; the body cannot change until the config does
      taskCmdRun toml glob (m2 :: msgs2) sched outputs body
    | some _ =>
      if sched.head?.getD false then
        -- the queued message wins the select against command completion;
        -- the in-flight process is dropped (detached), not killed, and its
        -- result is discarded
        if m2 then
          ⟨(taskCmdRun toml glob msgs2 sched.tail outputs body).body,
           .detached :: (taskCmdRun toml glob msgs2 sched.tail outputs body).procs,
           (taskCmdRun toml glob msgs2 sched.tail outputs body).refreshes,
           (taskCmdRun toml glob msgs2 sched.tail outputs body).logs,
           (taskCmdRun toml glob msgs2 sched.tail outputs body).halted⟩
        else
          -- halt received mid-command: loop exits with the process detached
          ⟨body, [.detached], 0, [], true⟩
      else
        -- the command completes first: re-apply scopes and ping the bar
        ⟨(taskCmdRun toml glob (m2 :: msgs2) sched.tail outputs.tail
            (refreshBody glob toml (outputs.head?.getD (.ok ⟨0, []⟩))).1).body,
         .completed :: (taskCmdRun toml glob (m2 :: msgs2) sched.tail outputs.tail
            (refreshBody glob toml (outputs.head?.getD (.ok ⟨0, []⟩))).1).procs,
         (taskCmdRun toml glob (m2 :: msgs2) sched.tail outputs.tail
            (refreshBody glob toml (outputs.head?.getD (.ok ⟨0, []⟩))).1).refreshes + 1,
         (refreshBody glob toml (outputs.head?.getD (.ok ⟨0, []⟩))).2 ++
           (taskCmdRun toml glob (m2 :: msgs2) sched.tail outputs.tail
             (refreshBody glob toml (outputs.head?.getD (.ok ⟨0, []⟩))).1).logs,
         (taskCmdRun toml glob (m2 :: msgs2) sched.tail outputs.tail
            (refreshBody glob toml (outputs.head?.getD (.ok ⟨0, []⟩))).1).halted⟩

/-- Entry of `Block::task_cmd`: the body is first initialised by a
scope merge over empty command output (block.rs line 256), then the receive
loop runs. -/
def taskCmd (toml : TomlBlock) (glob : Body) (msgs sched : List Bool)
    (outputs : List (Except String CmdOutput)) : CmdRun :=
  taskCmdRun toml glob msgs sched outputs (applyScopes (rustLines "") glob toml)

/-! ## File `src/blocks.rs`: the worker set (`Blocks`) -/

/-- A running worker as observed from the outside: its sequential
identifier and whether its cancellation token has been cancelled. -/
structure Worker where
  id : Nat
  cancelled : Bool
deriving DecidableEq, Repr

/-- The workers `Blocks::add_all` constructs for a config list: sequential
identifiers from `enumerate()`, tokens not yet cancelled. -/
def addAllWorkers (cfgs : List TomlBlock) : List Worker :=
  cfgs.enum.map fun p => ⟨p.1, false⟩

/-- The sequence of running-worker sets observed while
`Blocks::remove_all` executes: for each worker in order, first its token is
cancelled, then its task is awaited (it leaves the running set).  On the
empty set no step occurs. -/
def removeAllTrace : List Worker → List (List Worker)
  | [] => []
  | w :: ws => ({ w with cancelled := true } :: ws) :: ws :: removeAllTrace ws

/-- The sequence of running-worker sets observed while `Blocks::add_all`
spawns workers one by one. -/
def addAllTrace (cfgs : List TomlBlock) : List (List Worker) :=
  (List.range cfgs.length).map fun k => (addAllWorkers cfgs).take (k + 1)

/-- A bulk operation on the worker set. -/
inductive BlocksOp where
  | removeAll
  | addAll (cfgs : List TomlBlock)

/-- Run a sequence of bulk operations from a running-worker set, returning
every intermediate running-worker set, or `none` if `add_all`'s
`assert!(self.inner.is_empty())` fails. -/
def runBlocksOps : List Worker → List BlocksOp → Option (List (List Worker))
  | _, [] => some []
  | st, .removeAll :: ops =>
    (runBlocksOps [] ops).map (removeAllTrace st ++ ·)
  | st, .addAll cfgs :: ops =>
    if st = [] then
      (runBlocksOps (addAllWorkers cfgs) ops).map (addAllTrace cfgs ++ ·)
    else none

/-! ## File `src/bar.rs`: the continue/stop control loop of `Smolbar::run` -/

/-- The configuration data the control loop updates on reload. -/
structure ConfigM where
  body : Body
  blocks : List TomlBlock
deriving DecidableEq, Repr

/-- The bar state the control loop manipulates: current config and the
runtime blocks with the identifiers `push_block` assigned
(`id = vec.len() + 1`). -/
structure Bar where
  config : ConfigM
  blocks : List (Nat × TomlBlock)
deriving DecidableEq, Repr

/-- Helper `Smolbar::push_block` applied to every configured block in order:
identifiers 1, 2, …. -/
def pushBlocks (cfgBlocks : List TomlBlock) : List (Nat × TomlBlock) :=
  cfgBlocks.enum.map fun p => (p.1 + 1, p.2)

/-- Result of handling one `ContOrStop::Cont` event. -/
structure ContResult where
  bar : Bar
  haltedBlocks : List (Nat × TomlBlock)
  logs : List LogEntry
deriving DecidableEq, Repr

/-- The `ContOrStop::Cont` branch of `Smolbar::run` (bar.rs lines
217–271): on a successful reload, replace the config, halt every existing
block and construct the new set; on failure, log and keep everything. -/
def handleCont (bar : Bar) (loadResult : Except String ConfigM) : ContResult :=
  match loadResult with
  | .ok config =>
    { bar := { config := config, blocks := pushBlocks config.blocks }
      haltedBlocks := bar.blocks
      logs := [⟨.info, "reloading config"⟩, ⟨.trace, "halted all blocks"⟩,
               ⟨.trace, "done reloading"⟩] }
  | .error e =>
    { bar := bar
      haltedBlocks := []
      logs := [⟨.info, "reloading config"⟩,
               ⟨.error, "reading config failed: " ++ e⟩,
               ⟨.info, "keeping current configuration"⟩] }

/-- The control loop of `Smolbar::run`: each event is a received
`ContOrStop` message, a `Cont` carrying the outcome of
`Config::read_from_path`.  Returns the final bar state and whether the loop
terminated through `Stop` (`false` = still waiting to receive). -/
def barLoop : Bar → List (Option (Except String ConfigM)) → Bar × Bool
  | bar, [] => (bar, false)
  | bar, none :: _ =>
    -- ContOrStop::Stop: halt every block and break
    ({ bar with blocks := [] }, true)
  | bar, some res :: evs => barLoop (handleCont bar res).bar evs

/-! ## Specification-worded definitions (for refinement comparisons) -/

/-- The per-field scope-merge rule as the specification words it: the
corresponding positional line, parsed per field type (a parse failure yields
no value from this source), falling back in order item-local → global →
unset.  Written from the spec, for comparison with `update`. -/
def specMergeField {α : Type} (parse : String → Option α) (line : Option String)
    (loc glob : Option α) : Option α :=
  match line.bind parse with
  | some v => some v
  | none =>
    match loc with
    | some v => some v
    | none => glob

/-! ## Concrete fixtures used by witnesses and counterexamples -/

/-- Fixture: the spec scenario's block — prefix `"CPU: "`, no command, local
`full_text` default `"idle"`. -/
def tomlCpu : TomlBlock :=
  { command := none, pre := some "CPU: ", post := none, signal := none,
    body := { Body.new with full_text := some "idle" } }

/-- Fixture: a plain block with a command and no other configuration. -/
def tomlDate : TomlBlock :=
  { command := some "date", pre := none, post := none, signal := none,
    body := Body.new }

/-- Fixture: block A of the two-block scenario — its command fails; its
local scope supplies default text. -/
def tomlA : TomlBlock :=
  { command := some "a-cmd", pre := none, post := none, signal := none,
    body := { Body.new with full_text := some "A default" } }

/-- Fixture: block B of the two-block scenario. -/
def tomlB : TomlBlock :=
  { command := some "b-cmd", pre := none, post := none, signal := none,
    body := Body.new }

/-- Fixture: a bar-level configuration whose global body omits `full_text`. -/
def tomlBarFixture : TomlBar :=
  { header_version := 1, smolbar_version_ok := true, body := Body.new,
    blocks := [tomlCpu] }

/-! ## Helper lemmas -/

theorem rustLines_nil : rustLines "" = [] := rfl

theorem update_eq_specMergeField {α : Type} (parse : String → Option α)
    (line : Option String) (loc glob : Option α) :
    update parse line loc glob = specMergeField parse line loc glob := by
  cases line with
  | none => cases loc <;> rfl
  | some s =>
    cases hp : parse s <;> cases loc <;>
      simp [update, specMergeField, hp, Option.orElse, Option.bind]

/-- Characterization of `applyScopes`: every field is the three-way merge of
its positional line, and `full_text` additionally gets the configured prefix
prepended and postfix appended exactly when it is set. -/
theorem applyScopes_eq (lines : List String) (glob : Body) (toml : TomlBlock) :
    applyScopes lines glob toml =
      { full_text := (update parseStr lines[0]? toml.body.full_text glob.full_text).map
          fun t => (toml.pre.getD "" ++ t) ++ toml.post.getD ""
        short_text := update parseStr lines[1]? toml.body.short_text glob.short_text
        color := update parseStr lines[2]? toml.body.color glob.color
        background := update parseStr lines[3]? toml.body.background glob.background
        border := update parseStr lines[4]? toml.body.border glob.border
        border_top := update parseU32 lines[5]? toml.body.border_top glob.border_top
        border_bottom := update parseU32 lines[6]? toml.body.border_bottom glob.border_bottom
        border_left := update parseU32 lines[7]? toml.body.border_left glob.border_left
        border_right := update parseU32 lines[8]? toml.body.border_right glob.border_right
        min_width := update parseStr lines[9]? toml.body.min_width glob.min_width
        align := update parseAlign lines[10]? toml.body.align glob.align
        name := update parseStr lines[11]? toml.body.name glob.name
        inst := update parseStr lines[12]? toml.body.inst glob.inst
        urgent := update parseBool lines[13]? toml.body.urgent glob.urgent
        separator := update parseBool lines[14]? toml.body.separator glob.separator
        separator_block_width :=
          update parseU32 lines[15]? toml.body.separator_block_width glob.separator_block_width
        markup := update parseMarkup lines[16]? toml.body.markup glob.markup } := by
  unfold applyScopes
  cases hpre : toml.pre <;> cases hpost : toml.post <;>
    cases hft : update parseStr lines[0]? toml.body.full_text glob.full_text <;>
      simp [hft, String.append_empty, String.empty_append]

/-! ## Claim C5 -/

/-- C5: For every regeneration of a block's body, the scope merge assigns
each field from its positional line of the command output (a parse failure
yields no value from that source), falling back to the item-local value,
then the global-default value, then leaving the field unset; after the
merge, prefix is prepended and postfix appended to `full_text` exactly when
`full_text` is set.  In particular a block with prefix `"CPU: "`, no
command, and local `full_text` `"idle"` regenerates to `"CPU: idle"`. -/
theorem scope_merge_positional_fallback :
    (∀ (lines : List String) (glob : Body) (toml : TomlBlock),
      ((applyScopes lines glob toml).full_text =
        (specMergeField parseStr lines[0]? toml.body.full_text glob.full_text).map
          fun t => (toml.pre.getD "" ++ t) ++ toml.post.getD "") ∧
      (applyScopes lines glob toml).short_text =
        specMergeField parseStr lines[1]? toml.body.short_text glob.short_text ∧
      (applyScopes lines glob toml).color =
        specMergeField parseStr lines[2]? toml.body.color glob.color ∧
      (applyScopes lines glob toml).background =
        specMergeField parseStr lines[3]? toml.body.background glob.background ∧
      (applyScopes lines glob toml).border =
        specMergeField parseStr lines[4]? toml.body.border glob.border ∧
      (applyScopes lines glob toml).border_top =
        specMergeField parseU32 lines[5]? toml.body.border_top glob.border_top ∧
      (applyScopes lines glob toml).border_bottom =
        specMergeField parseU32 lines[6]? toml.body.border_bottom glob.border_bottom ∧
      (applyScopes lines glob toml).border_left =
        specMergeField parseU32 lines[7]? toml.body.border_left glob.border_left ∧
      (applyScopes lines glob toml).border_right =
        specMergeField parseU32 lines[8]? toml.body.border_right glob.border_right ∧
      (applyScopes lines glob toml).min_width =
        specMergeField parseStr lines[9]? toml.body.min_width glob.min_width ∧
      (applyScopes lines glob toml).align =
        specMergeField parseAlign lines[10]? toml.body.align glob.align ∧
      (applyScopes lines glob toml).name =
        specMergeField parseStr lines[11]? toml.body.name glob.name ∧
      (applyScopes lines glob toml).inst =
        specMergeField parseStr lines[12]? toml.body.inst glob.inst ∧
      (applyScopes lines glob toml).urgent =
        specMergeField parseBool lines[13]? toml.body.urgent glob.urgent ∧
      (applyScopes lines glob toml).separator =
        specMergeField parseBool lines[14]? toml.body.separator glob.separator ∧
      (applyScopes lines glob toml).separator_block_width =
        specMergeField parseU32 lines[15]? toml.body.separator_block_width
          glob.separator_block_width ∧
      (applyScopes lines glob toml).markup =
        specMergeField parseMarkup lines[16]? toml.body.markup glob.markup) ∧
    (∀ (glob : Body) (toml : TomlBlock),
      toml.pre = some "CPU: " → toml.post = none →
      toml.body.full_text = some "idle" → toml.command = none →
      (applyScopes (rustLines "") glob toml).full_text = some "CPU: idle") := by
  refine ⟨fun lines glob toml => ?_, fun glob toml hpre hpost hft _hcmd => ?_⟩
  · rw [applyScopes_eq]
    simp [update_eq_specMergeField]
  · rw [rustLines_nil, applyScopes_eq]
    simp [hpre, hpost, hft, update, Option.orElse, String.append_empty]

/-- Witness for C5: the scenario instance, evaluated concretely. -/
theorem scope_merge_positional_fallback_witness :
    (applyScopes (rustLines "") Body.new tomlCpu).full_text = some "CPU: idle" :=
  scope_merge_positional_fallback.2 Body.new tomlCpu rfl rfl rfl rfl

/-! ## Claim C9 -/

/-- C9 counterexample: `Block::new` does not size its refresh-request queue
to `max(2, 2 × worker_count)` — the channel is created with capacity 1
(`mpsc::channel(1)`), which already differs at `worker_count = 1`. -/
theorem block_queue_capacity_cex :
    (blockNew tomlDate Body.new 1).cmd_cap = 1 ∧ specQueueCapacity 1 = 2 ∧
      (blockNew tomlDate Body.new 1).cmd_cap ≠ specQueueCapacity 1 := by
  decide

/-- C9 (amended): every channel `Block::new` creates, and the bar's refresh
channel, has capacity 1 — `Block::new` takes no worker-count sizing hint and
the capacity is always strictly below the spec's `max(2, 2·worker_count)`. -/
theorem block_channels_capacity_one (toml : TomlBlock) (glob : Body) (id wc : Nat) :
    (blockNew toml glob id).cmd_cap = 1 ∧
    (blockNew toml glob id).sig_cap = 1 ∧
    (blockNew toml glob id).interval_cap = 1 ∧
    barRefreshChannelCap = 1 ∧
    (blockNew toml glob id).cmd_cap < specQueueCapacity wc := by
  refine ⟨rfl, rfl, rfl, rfl, ?_⟩
  show 1 < specQueueCapacity wc
  exact lt_of_lt_of_le one_lt_two (le_max_left _ _)

/-! ## Claim C10 -/

/-- C10: For every configuration successfully loaded, if the global-scope
body omits `full_text`, the loaded global `full_text` is `Some("")`, so a
block's prefix and postfix still apply — yielding `prefix ++ postfix` as the
text — even when neither the command output nor any config scope provides a
text value. -/
theorem config_default_fulltext_empty (toml : TomlBar)
    (hok : toml.smolbar_version_ok = true) (hft : toml.body.full_text = none) :
    ∃ t, readFromPathToml toml = .ok t ∧ t.body.full_text = some "" ∧
      ∀ (blk : TomlBlock) (p q : String), blk.body.full_text = none →
        blk.pre = some p → blk.post = some q →
        (applyScopes (rustLines "") t.body blk).full_text = some (p ++ q) := by
  refine ⟨{ toml with body := { toml.body with full_text := some "" } }, ?_, rfl, ?_⟩
  · simp [readFromPathToml, hft, hok]
  · intro blk p q hb hp hq
    rw [rustLines_nil, applyScopes_eq]
    simp [hb, hp, hq, update, Option.orElse, String.append_empty]

/-- Witness for C10, at a concrete configuration. -/
theorem config_default_fulltext_empty_witness :
    ∃ t, readFromPathToml tomlBarFixture = .ok t ∧ t.body.full_text = some "" ∧
      ∀ (blk : TomlBlock) (p q : String), blk.body.full_text = none →
        blk.pre = some p → blk.post = some q →
        (applyScopes (rustLines "") t.body blk).full_text = some (p ++ q) :=
  config_default_fulltext_empty tomlBarFixture rfl rfl

/-! ## Claim C6 -/

/-- C6 counterexample: a command completing with exit status 1 and empty
stdout is processed with NO log entry at all — the exit status is never
inspected — contradicting the claim that a non-zero exit status is recorded
as a warning (for block A of the scenario, no warning is logged). -/
theorem nonzero_exit_no_warning_cex :
    refreshBody Body.new tomlA (.ok ⟨1, []⟩) =
      ({ Body.new with full_text := some "A default" }, []) := by
  decide

/-- C6 (amended): the command result handling of `Block::task_cmd` ignores
the exit status entirely (no warning, stdout used as-is); spawn failure and
invalid output encoding are logged as errors and the merge proceeds with the
empty string.  In the two-block scenario the snapshot keeps configured order
with A falling back to its default text and B showing `"ok"`, and no log
entry is recorded for either block. -/
theorem command_failure_handling :
    (∀ (s1 s2 : Int) (bytes : List Nat),
       processOutput (.ok ⟨s1, bytes⟩) = processOutput (.ok ⟨s2, bytes⟩)) ∧
    (∀ (s : Int) (bytes : List Nat), utf8Decode bytes = none →
       processOutput (.ok ⟨s, bytes⟩) =
         ("", [⟨.error, "command produced invalid utf8"⟩])) ∧
    (∀ e, processOutput (.error e) = ("", [⟨.error, "command error: " ++ e⟩])) ∧
    [refreshBody Body.new tomlA (.ok ⟨1, []⟩),
     refreshBody Body.new tomlB (.ok ⟨0, [111, 107, 10]⟩)].map
        (fun r => (r.1.full_text, r.2)) =
      [(some "A default", []), (some "ok", [])] := by
  refine ⟨fun s1 s2 bytes => rfl, fun s bytes h => ?_, fun e => rfl, by decide⟩
  simp [processOutput, h]

/-- Witness for C6's amended theorem: invalid UTF-8 output at a concrete
byte sequence. -/
theorem command_failure_handling_witness :
    processOutput (.ok ⟨3, [255]⟩) =
      ("", [⟨.error, "command produced invalid utf8"⟩]) :=
  command_failure_handling.2.1 3 [255] rfl

/-! ## Claim C7 -/

/-- C7: For every `Cont` (reconfigure) event whose configuration load
fails, the error is logged and the current block set is retained entirely
unchanged — no block is halted, removed, or added — and the control loop
continues exactly as if the event had not occurred. -/
theorem cont_failure_retains_blocks (bar : Bar) (e : String)
    (evs : List (Option (Except String ConfigM))) :
    (handleCont bar (.error e)).bar = bar ∧
    (handleCont bar (.error e)).haltedBlocks = [] ∧
    ⟨.error, "reading config failed: " ++ e⟩ ∈ (handleCont bar (.error e)).logs ∧
    barLoop bar (some (.error e) :: evs) = barLoop bar evs := by
  refine ⟨rfl, rfl, ?_, rfl⟩
  simp [handleCont]

/-! ## Claim C8 -/

/-- C8 counterexample: a configured interval of `0` disables the trigger
but logs an ERROR (`error!("can't have timeout of zero")`), not a warning
as the claim states — the single log entry has error level. -/
theorem interval_zero_logs_error_cex :
    taskIntervalSetup (some (.finite 0 0)) =
      (none, [⟨.error, "cant have timeout of zero"⟩]) ∧
    LogLevel.error ≠ LogLevel.warn := by
  decide

/-- C8 (amended): an interval converting to a zero duration is rejected —
trigger disabled with an error (not a warning) logged; a positive
sub-millisecond duration is clamped up to one millisecond with a warning; a
negative, non-finite, or overflowing value fails conversion and is logged
with the trigger disabled; an absent interval disables the trigger
silently. -/
theorem interval_setup_branches :
    (∀ f, tryFromSecsF32 f = .ok 0 →
       taskIntervalSetup (some f) = (none, [⟨.error, "cant have timeout of zero"⟩])) ∧
    (∀ f d, tryFromSecsF32 f = .ok d → 0 < d → d < 1000000 →
       taskIntervalSetup (some f) =
         (some 1000000,
          [⟨.warn, "timeout was really small and clamped to a millisecond"⟩])) ∧
    (∀ f e, tryFromSecsF32 f = .error e →
       taskIntervalSetup (some f) = (none, [⟨.error, "invalid timeout: " ++ e⟩])) ∧
    (∀ (num : Int) (exp : Nat), num < 0 →
       tryFromSecsF32 (.finite num exp) =
         .error "can not convert float seconds to Duration: value is negative") ∧
    (tryFromSecsF32 .nan =
       .error "can not convert float seconds to Duration: value is either too big or NaN" ∧
     tryFromSecsF32 .posInf =
       .error "can not convert float seconds to Duration: value is either too big or NaN" ∧
     tryFromSecsF32 .negInf =
       .error "can not convert float seconds to Duration: value is negative") ∧
    taskIntervalSetup none = (none, []) := by
  refine ⟨fun f h => ?_, fun f d h hd0 hd1 => ?_, fun f e h => ?_,
    fun num exp hneg => ?_, ⟨rfl, rfl, rfl⟩, rfl⟩
  · simp [taskIntervalSetup, h]
  · have hne : d ≠ 0 := by omega
    simp [taskIntervalSetup, h, hne, hd1]
  · simp [taskIntervalSetup, h]
  · show (if num < 0 then _ else _) = _
    rw [if_pos hneg]

/-- Witness for C8's amended theorem: the three fallible branches at
concrete inputs — interval `0`, the nearest `f32` to `0.0005` (the dyadic
`17179869 / 2^35`), and `-1`. -/
theorem interval_setup_branches_witness :
    taskIntervalSetup (some (.finite 0 0)) =
      (none, [⟨.error, "cant have timeout of zero"⟩]) ∧
    taskIntervalSetup (some (.finite 17179869 35)) =
      (some 1000000,
       [⟨.warn, "timeout was really small and clamped to a millisecond"⟩]) ∧
    taskIntervalSetup (some (.finite (-1) 0)) =
      (none,
       [⟨.error,
         "invalid timeout: can not convert float seconds to Duration: value is negative"⟩]) :=
  ⟨interval_setup_branches.1 (.finite 0 0) rfl,
   interval_setup_branches.2.1 (.finite 17179869 35) 500000 rfl (by decide) (by decide),
   interval_setup_branches.2.2.1 (.finite (-1) 0) _
     (interval_setup_branches.2.2.2.1 (-1) 0 (by decide))⟩

/-! ## Claim C1 -/

/-- C1 counterexample: two refresh requests over an unchanged one-block
snapshot produce two writes of identical frames — the refresh loop computes
no fingerprint and suppresses nothing, so consecutive equal output frames
occur. -/
theorem refresh_duplicate_frames_cex :
    refreshRun [true, true] [] [[Body.new], [Body.new]] [] =
      ⟨[[Body.new], [Body.new]], .pending, 0⟩ ∧
    (refreshRun [true, true] [] [[Body.new], [Body.new]] []).frames[0]? =
      (refreshRun [true, true] [] [[Body.new], [Body.new]] []).frames[1]? := by
  decide

/-- C1 (amended): the refresh loop of `Smolbar::run` maintains no content
fingerprint and never suppresses a write — every refresh request that
reaches the write step emits the current snapshot unconditionally, so `n`
requests over unchanged blocks write `n` identical consecutive frames. -/
theorem refresh_writes_every_request (S : List Body) (n : Nat) :
    refreshRun (List.replicate n true) [] (List.replicate n S) [] =
      ⟨List.replicate n S, .pending, 0⟩ := by
  induction n with
  | zero => rfl
  | succ n ih =>
    cases n with
    | zero => rfl
    | succ m =>
      simp only [List.replicate_succ] at ih ⊢
      simp [refreshRun, ih]

/-! ## Claim C2 -/

/-- C2 counterexample: with a failing first write, the refresh loop logs
one error, restarts, and successfully writes the next frame — it keeps
running (`pending`) instead of shutting down and surfacing the error. -/
theorem write_failure_nonfatal_cex :
    refreshRun [true, true] [] [[Body.new], [Body.new]] [false, true] =
      ⟨[[Body.new]], .pending, 1⟩ := by
  decide

/-- Helper: the refresh task never surfaces a sink error to the caller. -/
theorem refreshRun_status_ne_fatal (msgs sched : List Bool)
    (snaps : List (List Body)) (sink : List Bool) (e : String) :
    (refreshRun msgs sched snaps sink).status ≠ RStatus.fatal e := by
  induction msgs, sched, snaps, sink using refreshRun.induct <;>
    simp_all [refreshRun]

/-- C2 (amended): a write failure to the output sink is NOT fatal — the
inner loop's error is logged by the outer loop, which restarts the write
loop with the retained receiver and continues; no error status ever
reaches the caller. -/
theorem write_failure_logged_and_continues :
    (∀ (msgs sched : List Bool) (snaps : List (List Body)) (sink : List Bool)
       (e : String), (refreshRun msgs sched snaps sink).status ≠ RStatus.fatal e) ∧
    (∀ (msgs : List Bool) (snaps : List (List Body)) (sink : List Bool)
       (S : List Body),
       refreshRun (true :: msgs) [] (S :: snaps) (false :: sink) =
         { refreshRun msgs [] snaps sink with
             errorLogs := (refreshRun msgs [] snaps sink).errorLogs + 1 }) := by
  refine ⟨refreshRun_status_ne_fatal, fun msgs snaps sink S => ?_⟩
  cases msgs <;> simp [refreshRun]

/-! ## Claim C3 -/

/-- C3 counterexample: a halt delivered while the configured command is
mid-execution leaves the spawned process DETACHED (still running,
unsupervised), not killed; the body keeps its pre-command value. -/
theorem halt_mid_command_not_killed_cex :
    (taskCmd tomlDate Body.new [true, false] [true] []).procs = [.detached] ∧
    (taskCmd tomlDate Body.new [true, false] [true] []).body =
      applyScopes (rustLines "") Body.new tomlDate ∧
    ProcFate.detached ≠ ProcFate.killed := by
  decide

/-- Helper: no execution of the command task ever kills a spawned
process. -/
theorem killed_not_in_taskCmdRun (toml : TomlBlock) (glob : Body)
    (msgs sched : List Bool) (outputs : List (Except String CmdOutput))
    (body : Body) :
    ProcFate.killed ∉ (taskCmdRun toml glob msgs sched outputs body).procs := by
  induction msgs, sched, outputs, body using taskCmdRun.induct toml glob <;>
    simp_all [taskCmdRun]

/-- C3 (amended): when a halt wins the race against an in-flight command,
the spawned process is detached — dropped, not killed — its result is
discarded, the block's body receives no further write from it, no refresh
is pinged, and the loop exits; and no path of the command task ever kills a
process. -/
theorem halt_mid_command_detaches :
    (∀ (toml : TomlBlock) (glob : Body) (c : String) (msgs2 sched : List Bool)
       (outputs : List (Except String CmdOutput)) (body : Body),
       toml.command = some c →
       taskCmdRun toml glob (true :: false :: msgs2) (true :: sched) outputs body =
         ⟨body, [.detached], 0, [], true⟩) ∧
    (∀ (toml : TomlBlock) (glob : Body) (msgs sched : List Bool)
       (outputs : List (Except String CmdOutput)) (body : Body),
       ProcFate.killed ∉ (taskCmdRun toml glob msgs sched outputs body).procs) := by
  refine ⟨fun toml glob c msgs2 sched outputs body h => ?_,
    fun toml glob msgs sched outputs body => killed_not_in_taskCmdRun _ _ _ _ _ _⟩
  rw [taskCmdRun]
  simp [h]

/-- Witness for C3's amended theorem at a concrete block and input. -/
theorem halt_mid_command_detaches_witness :
    taskCmdRun tomlDate Body.new [true, false] [true] [] Body.new =
      ⟨Body.new, [.detached], 0, [], true⟩ :=
  halt_mid_command_detaches.1 tomlDate Body.new "date" [] [] [] Body.new rfl

/-! ## Claim C4 -/

/-- Helper: `removeAllTrace` produces at least one state on a nonempty
set. -/
theorem removeAllTrace_ne_nil {l : List Worker} (h : l ≠ []) :
    removeAllTrace l ≠ [] := by
  cases l with
  | nil => exact absurd rfl h
  | cons w ws => simp [removeAllTrace]

/-- Helper: `remove_all` ends with the empty running set — every worker's
task has been awaited before the call returns. -/
theorem removeAllTrace_getLast {l : List Worker} (h : l ≠ []) :
    (removeAllTrace l).getLast? = some [] := by
  induction l with
  | nil => exact absurd rfl h
  | cons w ws ih =>
    cases hws : ws with
    | nil => simp [removeAllTrace]
    | cons w2 ws2 =>
      subst hws
      rw [removeAllTrace, List.getLast?_cons_cons]
      have hne : removeAllTrace (w2 :: ws2) ≠ [] :=
        removeAllTrace_ne_nil (by simp)
      cases hrt : removeAllTrace (w2 :: ws2) with
      | nil => exact absurd hrt hne
      | cons s rest =>
        rw [List.getLast?_cons_cons, ← hrt]
        exact ih (by simp)

/-- Helper: every worker of the pre-state is observed with its token
cancelled at some point of the `remove_all` trace. -/
theorem removeAllTrace_cancelled {l : List Worker} {w : Worker} (hw : w ∈ l) :
    ∃ s ∈ removeAllTrace l, { w with cancelled := true } ∈ s := by
  induction l with
  | nil => cases hw
  | cons v vs ih =>
    rcases List.mem_cons.mp hw with rfl | hmem
    · exact ⟨{ w with cancelled := true } :: vs, by simp [removeAllTrace], by simp⟩
    · obtain ⟨s, hs, hmem2⟩ := ih hmem
      exact ⟨s, List.mem_cons.mpr (Or.inr (List.mem_cons.mpr (Or.inr hs))), hmem2⟩

/-- Helper: every running-set of the `remove_all` trace carries a suffix of
the original identifier list. -/
theorem removeAllTrace_suffix {l s : List Worker} (hs : s ∈ removeAllTrace l) :
    s.map Worker.id <:+ l.map Worker.id := by
  induction l with
  | nil => simp [removeAllTrace] at hs
  | cons v vs ih =>
    rw [removeAllTrace] at hs
    rcases List.mem_cons.mp hs with rfl | hs2
    · exact List.suffix_refl _
    · rcases List.mem_cons.mp hs2 with rfl | hs3
      · exact List.suffix_cons _ _
      · exact (ih hs3).trans (List.suffix_cons _ _)

/-- Helper: `add_all` assigns the sequential identifiers `0, …, n-1`. -/
theorem addAllWorkers_map_id (cfgs : List TomlBlock) :
    (addAllWorkers cfgs).map Worker.id = List.range cfgs.length := by
  simp only [addAllWorkers, List.map_map]
  exact List.enum_map_fst cfgs

/-- Helper: every state of the `add_all` trace has pairwise-distinct
identifiers. -/
theorem addAllTrace_nodup {cfgs : List TomlBlock} {s : List Worker}
    (hs : s ∈ addAllTrace cfgs) : (s.map Worker.id).Nodup := by
  obtain ⟨k, _, rfl⟩ := List.mem_map.mp hs
  rw [List.map_take, addAllWorkers_map_id]
  exact List.Nodup.sublist (List.take_sublist _ _) (List.nodup_range _)

/-- Helper: the running-set invariant — along any sequence of bulk
operations, every intermediate running set has pairwise-distinct
identifiers. -/
theorem runBlocksOps_states_nodup :
    ∀ (ops : List BlocksOp) (st : List Worker) (trace : List (List Worker)),
      (st.map Worker.id).Nodup → runBlocksOps st ops = some trace →
      ∀ s ∈ trace, (s.map Worker.id).Nodup := by
  intro ops
  induction ops with
  | nil =>
    intro st trace _ hrun s hs
    simp [runBlocksOps] at hrun
    subst hrun
    cases hs
  | cons op ops ih =>
    intro st trace hnd hrun s hs
    cases op with
    | removeAll =>
      rw [runBlocksOps] at hrun
      obtain ⟨trace2, h2, rfl⟩ := Option.map_eq_some'.mp hrun
      rcases List.mem_append.mp hs with hs1 | hs2
      · exact List.Nodup.sublist (removeAllTrace_suffix hs1).sublist hnd
      · exact ih [] trace2 (by simp) h2 s hs2
    | addAll cfgs =>
      rw [runBlocksOps] at hrun
      by_cases hst : st = []
      · rw [if_pos hst] at hrun
        obtain ⟨trace2, h2, rfl⟩ := Option.map_eq_some'.mp hrun
        rcases List.mem_append.mp hs with hs1 | hs2
        · exact addAllTrace_nodup hs1
        · refine ih (addAllWorkers cfgs) trace2 ?_ h2 s hs2
          rw [addAllWorkers_map_id]
          exact List.nodup_range _
      · rw [if_neg hst] at hrun
        cases hrun

/-- C4: `remove_all` cancels every worker's token and awaits every worker's
termination before returning (and is a no-op on the empty set); `add_all`
asserts the set is empty before populating it with sequentially identified
workers; consequently, along any sequence of reconfigure operations, at no
point do two running workers share the same identifier. -/
theorem worker_set_bulk_ops :
    (removeAllTrace [] = [] ∧
     ∀ (l : List Worker), l ≠ [] → (removeAllTrace l).getLast? = some []) ∧
    (∀ (l : List Worker) (w : Worker), w ∈ l →
       ∃ s ∈ removeAllTrace l, { w with cancelled := true } ∈ s) ∧
    (∀ (st : List Worker) (cfgs : List TomlBlock) (ops : List BlocksOp),
       runBlocksOps st (.addAll cfgs :: ops) ≠ none → st = []) ∧
    (∀ cfgs : List TomlBlock,
       (addAllWorkers cfgs).map Worker.id = List.range cfgs.length) ∧
    (∀ (st : List Worker) (ops : List BlocksOp) (trace : List (List Worker)),
       (st.map Worker.id).Nodup → runBlocksOps st ops = some trace →
       ∀ s ∈ trace, (s.map Worker.id).Nodup) := by
  refine ⟨⟨rfl, fun l hl => removeAllTrace_getLast hl⟩,
    fun l w hw => removeAllTrace_cancelled hw,
    fun st cfgs ops h => ?_,
    addAllWorkers_map_id,
    fun st ops trace => runBlocksOps_states_nodup ops st trace⟩
  by_contra hne
  apply h
  rw [runBlocksOps, if_neg hne]

/-- Witness for C4: each hypothesis-bearing part applied at a concrete
worker set and operation sequence. -/
theorem worker_set_bulk_ops_witness :
    (removeAllTrace [⟨0, false⟩]).getLast? = some [] ∧
    (∃ s ∈ removeAllTrace [⟨0, false⟩], (⟨0, true⟩ : Worker) ∈ s) ∧
    ([] : List Worker) = [] ∧
    (∀ s ∈ [[(⟨0, false⟩ : Worker)], [⟨0, true⟩], []],
       (s.map Worker.id).Nodup) :=
  ⟨worker_set_bulk_ops.1.2 [⟨0, false⟩] (by decide),
   worker_set_bulk_ops.2.1 [⟨0, false⟩] ⟨0, false⟩ (by simp),
   worker_set_bulk_ops.2.2.1 [] [tomlDate] [] (by decide),
   worker_set_bulk_ops.2.2.2.2 [] [.addAll [tomlDate], .removeAll]
     [[⟨0, false⟩], [⟨0, true⟩], []] (by simp) (by decide)⟩

end Smolbar
